import Mathlib

/-!
Shallow embedding of the layout-reconstruction pipeline implemented by
`pdf_to_markdown` in `src/pdf_to_markdown.py`, together with theorems
checking the behavioural claims of the specification against it.

Modelling conventions:
* Python floats (glyph coordinates, sizes, colour channels) are modelled
  as exact rationals `ℚ`; the literal `0.2` is modelled as `1/5`.
* A pdfplumber character dict is modelled by the structure `Glyph`.
  The fields `top`, `x0`, `size` and `text` are accessed with mandatory
  indexing (`char["top"]`, `char["x0"]`, `current_line[-1]["size"]`,
  `char["text"]`) before any optional access happens, so they are plain
  fields; `fontname` and `non_stroking_color` are only accessed through
  `char.get(..., default)`, so they are `Option`-valued (a missing key).
* A present-but-`None` or wrong-arity colour value is representable via
  `PyColor.none` / `PyColor.tuple`, matching what `char.get` can return.
* Exceptions (`re.error` on an invalid pattern, `TypeError`/`IndexError`
  when indexing a malformed colour, pdfplumber extraction failures) are
  modelled with `Except PdfErr`; `.error` means the Python code raises.
* Python's insertion-ordered `dict` used for `styled_chars` is modelled
  by an association list extended in first-seen-key order.
* `re.match` is compiled lazily by Python at its first use, so an
  invalid pattern only raises when some line is actually matched; a
  pattern is modelled as either a match-from-start predicate on strings
  (`Pattern.valid`) or an invalid pattern whose first use raises.
-/

namespace PdfMd

/-- Python `str.lower`, character by character. -/
def toLowerStr (s : String) : String := ⟨s.data.map Char.toLower⟩

/-- Python `str.strip`: drop whitespace at both ends. -/
def trimStr (s : String) : String :=
  ⟨((s.data.dropWhile Char.isWhitespace).reverse.dropWhile Char.isWhitespace).reverse⟩

/-- Auxiliary list-level check used by `strContains`. -/
def headMatch : List Char → List Char → Bool
  | [], _ => true
  | _ :: _, [] => false
  | a :: as, b :: bs => a = b && headMatch as bs

/-- Auxiliary substring search over character lists. -/
def subSearch (needle : List Char) : List Char → Bool
  | [] => headMatch needle []
  | h :: t => headMatch needle (h :: t) || subSearch needle t

/-- Python `needle in hay` on strings. -/
def strContains (hay needle : String) : Bool := subSearch needle.data hay.data

/-- Python `round` on a float: round half to even (banker's rounding). -/
def pyRound (q : ℚ) : ℤ :=
  if q - ⌊q⌋ < 1/2 then ⌊q⌋
  else if 1/2 < q - ⌊q⌋ then ⌊q⌋ + 1
  else if ⌊q⌋ % 2 = 0 then ⌊q⌋ else ⌊q⌋ + 1

/-- Python `int` on a float: truncation toward zero. -/
def pyInt (q : ℚ) : ℤ := if 0 ≤ q then ⌊q⌋ else -⌊-q⌋

/-- A value stored under the `"non_stroking_color"` key of a character
dict: either Python `None` or a tuple of channel values. -/
inductive PyColor where
  | none
  | tuple (cs : List ℚ)
deriving DecidableEq, Repr, Inhabited

/-- One pdfplumber character record, as consumed by `pdf_to_markdown`. -/
structure Glyph where
  text : String
  top : ℚ
  x0 : ℚ
  size : ℚ
  fontname : Option String
  non_stroking_color : Option PyColor
deriving DecidableEq, Repr, Inhabited

/-- The sort key order of `sorted(page.chars, key=lambda c: (c["top"], c["x0"]))`:
lexicographic on `(top, x0)`. -/
def glyphLE (a b : Glyph) : Prop :=
  a.top < b.top ∨ (a.top = b.top ∧ a.x0 ≤ b.x0)

instance : DecidableRel glyphLE := fun a b => by unfold glyphLE; infer_instance

instance : IsTotal Glyph glyphLE := ⟨by
  intro a b
  rcases lt_trichotomy a.top b.top with h | h | h
  · exact Or.inl (Or.inl h)
  · rcases le_total a.x0 b.x0 with h2 | h2
    · exact Or.inl (Or.inr ⟨h, h2⟩)
    · exact Or.inr (Or.inr ⟨h.symm, h2⟩)
  · exact Or.inr (Or.inl h)⟩

instance : IsTrans Glyph glyphLE := ⟨by
  intro a b c hab hbc
  rcases hab with h | ⟨he, hx⟩
  · rcases hbc with h2 | ⟨he2, _⟩
    · exact Or.inl (h.trans h2)
    · exact Or.inl (he2 ▸ h)
  · rcases hbc with h2 | ⟨he2, hx2⟩
    · exact Or.inl (he ▸ h2)
    · exact Or.inr ⟨he.trans he2, hx.trans hx2⟩⟩

/-- Line 18 of the source: stable sort of a page's characters by `(top, x0)`. -/
def sortGlyphs (gs : List Glyph) : List Glyph := List.insertionSort glyphLE gs

/-- The dynamic tolerance of line 25: `current_line[-1]["size"] * 0.2`. -/
def lineTol (g : Glyph) : ℚ := g.size * (1/5)

/-- The per-glyph continuation test of line 26:
`abs(char["top"] - current_line[-1]["top"]) < tolerance`. -/
def sameLine (a b : Glyph) : Prop := |b.top - a.top| < lineTol a

instance : DecidableRel sameLine := fun a b => by unfold sameLine; infer_instance

/-- Loop of lines 24-31: the current line is `pre ++ [last]`; each further
glyph either continues the line or closes it and starts a fresh one. -/
def clusterLoop (pre : List Glyph) (last : Glyph) : List Glyph → List (List Glyph)
  | [] => [pre ++ [last]]
  | c :: rest =>
    if sameLine last c then
      clusterLoop (pre ++ [last]) c rest
    else
      (pre ++ [last]) :: clusterLoop [] c rest

/-- Lines 21-31: group the sorted characters into lines; an empty page
produces no lines. -/
def clusterLines : List Glyph → List (List Glyph)
  | [] => []
  | g :: rest => clusterLoop [] g rest

/-- Errors raised by the Python code, used as the `Except` error type. -/
inductive PdfErr where
  | patternErr
  | typeErr
  | extractionErr
deriving DecidableEq, Repr

/-- A configured header/footer pattern string: either one with valid
syntax, behaving as a match-from-start predicate, or one with invalid
syntax, whose first use in `re.match` raises `re.error`. -/
inductive Pattern where
  | valid (m : String → Bool)
  | invalid

/-- `re.match(pattern, s)` viewed as a test: `True` iff the pattern
matches `s` from the start; an invalid pattern raises at this call. -/
def reMatch (p : Pattern) (s : String) : Except PdfErr Bool :=
  match p with
  | .valid m => .ok (m s)
  | .invalid => .error .patternErr

/-- Line 35/37: `"".join([char["text"] for char in line])`. -/
def rawLineText (line : List Glyph) : String := String.join (line.map (·.text))

/-- The list comprehension of line 35 (resp. 37): keep the lines whose
stripped text does not match; matches are evaluated left to right, so an
invalid pattern raises at the first line tested. -/
def filterLoop (p : Pattern) : List (List Glyph) → Except PdfErr (List (List Glyph))
  | [] => .ok []
  | l :: rest => do
    let b ← reMatch p (trimStr (rawLineText l))
    let tail ← filterLoop p rest
    pure (if b then tail else l :: tail)

/-- Lines 34-37: the filter runs only when a pattern is configured
(`if header_regex:`); an absent pattern leaves the lines untouched. -/
def filterHF (p : Option Pattern) (lines : List (List Glyph)) :
    Except PdfErr (List (List Glyph)) :=
  match p with
  | Option.none => .ok lines
  | some pat => filterLoop pat lines

/-- A style signature, line 52: `(fontname, size, color)` after the
normalisations of lines 49-51. -/
abbrev Sig := String × ℤ × PyColor

/-- Lines 49-51: `fontname = char.get("fontname", "").lower()`,
`size = round(char.get("size", 0))` (the `size` key is always present,
having been indexed by the segmenter already), and
`color = char.get("non_stroking_color", (0, 0, 0))`. -/
def glyphSig (g : Glyph) : Sig :=
  (toLowerStr (g.fontname.getD ""), pyRound g.size,
    g.non_stroking_color.getD (PyColor.tuple [0, 0, 0]))

/-- Lines 53-55 for one character: append its text to the bucket of its
signature, creating the bucket at the end on first sight of the key
(Python dicts preserve insertion order). -/
def addToBucket : List (Sig × List String) → Sig → String → List (Sig × List String)
  | [], s, t => [(s, [t])]
  | (k, ts) :: rest, s, t =>
    if k = s then (k, ts ++ [t]) :: rest else (k, ts) :: addToBucket rest s t

/-- Lines 47-55: the `styled_chars` dict of one line. -/
def styledChars (line : List Glyph) : List (Sig × List String) :=
  line.foldl (fun acc g => addToBucket acc (glyphSig g) g.text) []

/-- One entry of `line_objects` (lines 79-84). -/
structure LineObj where
  text : String
  is_heading : Bool
  heading_level : ℕ
  color : Option PyColor
deriving DecidableEq, Repr, Inhabited

/-- Lines 57-62: the heading classification of one line from its
`styled_chars`, returning `(is_heading, heading_level, line_color)`. -/
def classifyLine (title_recognize : Bool) (buckets : List (Sig × List String)) :
    Bool × ℕ × Option PyColor :=
  if title_recognize = true ∧ buckets.length = 1 then
    match buckets with
    | ((fontname, size, color), _) :: _ =>
      if strContains fontname "bold" = true ∧ 14 < size then
        (true, if 18 < size then 1 else 2, some color)
      else (false, 0, Option.none)
    | [] => (false, 0, Option.none)
  else (false, 0, Option.none)

/-- Hex digit of a value below 16, lowercase. -/
def hexDigitCh (n : ℕ) : Char :=
  if n < 10 then Char.ofNat (48 + n) else Char.ofNat (87 + n)

/-- Hex digits of `n`, most significant first (empty for 0). -/
def natHexAux : ℕ → ℕ → List Char
  | 0, _ => []
  | fuel + 1, n => if n = 0 then [] else natHexAux fuel (n / 16) ++ [hexDigitCh (n % 16)]

/-- Hex digits of `n` (at least one digit). -/
def natHexStr (n : ℕ) : List Char := if n = 0 then ['0'] else natHexAux n n

/-- Python `"%02x" % i` (an `f"{i:02x}"` format item): zero-pad to total
width 2, the sign of a negative value counting toward the width. -/
def fmt02x (i : ℤ) : String :=
  if i < 0 then ⟨'-' :: natHexStr (-i).toNat⟩
  else ⟨if (natHexStr i.toNat).length = 1 then '0' :: natHexStr i.toNat else natHexStr i.toNat⟩

/-- Lines 64-77, body of the rendering loop for one `styled_chars` item:
join the bucket's texts, wrap bold/italic runs when colour recognition is
on, and wrap a non-black colour in a `<font>` span whose hex encoding
indexes channels 0, 1 and 2 of the colour value — raising a `TypeError`
(`None`) or `IndexError` (short tuple) when the value is malformed. -/
def renderRun (color_recognize : Bool) (style : Sig) (texts : List String) :
    Except PdfErr String :=
  let text := String.join texts
  if color_recognize = true then
    match style with
    | (fontname, _, color) =>
      let is_bold := strContains fontname "bold"
      let is_italic := strContains fontname "italic" || strContains fontname "oblique"
      let text := if is_bold then "**" ++ text ++ "**" else text
      let text := if is_italic then "*" ++ text ++ "*" else text
      if color ≠ PyColor.tuple [0, 0, 0] then
        match color with
        | PyColor.none => .error .typeErr
        | PyColor.tuple cs =>
          match cs.get? 0, cs.get? 1, cs.get? 2 with
          | some r, some g, some b =>
            .ok ("<font color=\"#" ++ fmt02x (pyInt (r * 255)) ++ fmt02x (pyInt (g * 255))
              ++ fmt02x (pyInt (b * 255)) ++ "\">" ++ text ++ "</font>")
          | _, _, _ => .error .typeErr
      else .ok text
  else .ok text

/-- The rendering loop of lines 64-77: `line_text` accumulates the
rendered text of every bucket in insertion order. -/
def buildLineText (cr : Bool) : List (Sig × List String) → Except PdfErr String
  | [] => .ok ""
  | (style, texts) :: rest => do
    let t ← renderRun cr style texts
    let restText ← buildLineText cr rest
    pure (t ++ restText)

/-- Lines 41-84 for one line: classification plus rendered text. -/
def mkLineObj (tr cr : Bool) (line : List Glyph) : Except PdfErr LineObj := do
  let buckets := styledChars line
  let c := classifyLine tr buckets
  let t ← buildLineText cr buckets
  pure ⟨t, c.1, c.2.1, c.2.2⟩

/-- The `line_objects` list of lines 40-84, built line by line. -/
def mkLineObjs (tr cr : Bool) : List (List Glyph) → Except PdfErr (List LineObj)
  | [] => .ok []
  | l :: rest => do
    let o ← mkLineObj tr cr l
    let os ← mkLineObjs tr cr rest
    pure (o :: os)

/-- Lines 86-101, the merge pass: when the current line is a heading and
the immediately next line is a heading of equal level and equal colour,
the next line's text is appended after a space and the scan resumes
after the pair; otherwise the scan advances one line. -/
def mergeTitles (tr : Bool) : List LineObj → List LineObj
  | [] => []
  | [l] => [l]
  | l1 :: l2 :: rest =>
    if tr = true ∧ l1.is_heading = true ∧ l2.is_heading = true ∧
        l1.heading_level = l2.heading_level ∧ l1.color = l2.color then
      { l1 with text := l1.text ++ " " ++ l2.text } :: mergeTitles tr rest
    else
      l1 :: mergeTitles tr (l2 :: rest)

/-- Python `'#' * n`. -/
def hashes (n : ℕ) : String := ⟨List.replicate n '#'⟩

/-- Lines 104-108: one output line of the final pass. -/
def renderLine (tr : Bool) (l : LineObj) : String :=
  if tr = true ∧ l.is_heading = true then hashes l.heading_level ++ " " ++ l.text ++ "\n"
  else l.text ++ "\n"

/-- The final pass of lines 103-108 over the merged lines. -/
def renderLines (tr : Bool) (ls : List LineObj) : String :=
  String.join (ls.map (renderLine tr))

/-- Line 15: `f"\n\n<!-- Page {page.page_number} -->\n\n"`. -/
def pageMarker (n : ℤ) : String := "\n\n<!-- Page " ++ toString n ++ " -->\n\n"

/-- Lines 14-108 for one page: the page's contribution to
`markdown_content`, or the exception that aborts the document. -/
def processPage (tr cr : Bool) (hp fp : Option Pattern) (page_number : ℤ)
    (chars : List Glyph) : Except PdfErr String := do
  let lines := clusterLines (sortGlyphs chars)
  let lines ← filterHF hp lines
  let lines ← filterHF fp lines
  let objs ← mkLineObjs tr cr lines
  pure (pageMarker page_number ++ renderLines tr (mergeTitles tr objs))

/-- One element of `pdf.pages`: reading `page.chars` may itself raise an
extraction error inside the library. -/
structure Page where
  page_number : ℤ
  chars : Except PdfErr (List Glyph)

/-- The page loop of lines 13-108: `markdown_content` accumulates each
page's contribution in order; the first exception aborts the loop. -/
def buildDoc (tr cr : Bool) (hp fp : Option Pattern) : List Page → Except PdfErr String
  | [] => .ok ""
  | p :: rest => do
    let cs ← p.chars
    let s ← processPage tr cr hp fp p.page_number cs
    let restS ← buildDoc tr cr hp fp rest
    pure (s ++ restS)

/-- The whole of `pdf_to_markdown` (lines 8-111): `pdfplumber.open` may
fail; the output file is written, with the full accumulated content,
only after the whole document has been processed — `.ok s` means the
artifact is written with content `s`, `.error` means the exception
propagates and nothing is written. -/
def pdf_to_markdown (tr cr : Bool) (hp fp : Option Pattern)
    (pdf : Except PdfErr (List Page)) : Except PdfErr String := do
  let pages ← pdf
  buildDoc tr cr hp fp pages

/-! Specification-side accessors and relations used to state the claims. -/

/-- The texts accumulated in the bucket of signature `s`, `[]` when the
signature has no bucket. -/
def bucketTexts : List (Sig × List String) → Sig → List String
  | [], _ => []
  | (k, ts) :: rest, s => if k = s then ts else bucketTexts rest s

/-- Semantics of the configured pattern string `"^Page \\d+"` under
`re.match` (which anchors at the start): the text must begin with
`"Page "` followed by at least one digit; trailing text is irrelevant. -/
def matchPageNum (s : String) : Bool :=
  match s.data with
  | 'P' :: 'a' :: 'g' :: 'e' :: ' ' :: c :: _ => c.isDigit
  | _ => false

/-- Relation between two consecutive emitted lines: the glyph that
closed the first line and the glyph that opened the next one were at
vertical distance at least the tolerance (the continuation test failed). -/
def lineBreak (l1 l2 : List Glyph) : Prop :=
  ∀ a ∈ l1.getLast?, ∀ b ∈ l2.head?, ¬ sameLine a b

/-! Concrete inputs used by counterexamples and witnesses. -/

/-- A level-1 black heading line object with text `"T"`. -/
def hA : LineObj := ⟨"T", true, 1, some (PyColor.tuple [0, 0, 0])⟩

/-- A level-1 heading line object with a different (red) colour. -/
def hB : LineObj := ⟨"U", true, 1, some (PyColor.tuple [1, 0, 0])⟩

/-- A non-heading body line object. -/
def bX : LineObj := ⟨"body", false, 0, Option.none⟩

/-- Five bold 20pt black glyphs spelling `"Hello"` on one row. -/
def gH : Glyph := ⟨"H", 0, 0, 20, some "Arial-Bold", some (PyColor.tuple [0, 0, 0])⟩

/-- Second glyph of the `"Hello"` row. -/
def gE : Glyph := ⟨"e", 0, 1, 20, some "Arial-Bold", some (PyColor.tuple [0, 0, 0])⟩

/-- Third glyph of the `"Hello"` row. -/
def gL1 : Glyph := ⟨"l", 0, 2, 20, some "Arial-Bold", some (PyColor.tuple [0, 0, 0])⟩

/-- Fourth glyph of the `"Hello"` row. -/
def gL2 : Glyph := ⟨"l", 0, 3, 20, some "Arial-Bold", some (PyColor.tuple [0, 0, 0])⟩

/-- Fifth glyph of the `"Hello"` row. -/
def gO : Glyph := ⟨"o", 0, 4, 20, some "Arial-Bold", some (PyColor.tuple [0, 0, 0])⟩

/-- The `"Hello"` page content. -/
def helloGlyphs : List Glyph := [gH, gE, gL1, gL2, gO]

/-- A page record whose character extraction fails. -/
def badPage : Page := ⟨1, .error .extractionErr⟩

/-- A page record with no characters at all. -/
def emptyPage : Page := ⟨1, .ok []⟩

/-- A glyph whose colour key is present but holds Python `None`. -/
def gNoneColor : Glyph := ⟨"x", 0, 0, 12, some "Arial", some PyColor.none⟩

/-- A glyph whose colour is a malformed 1-tuple. -/
def gShortColor : Glyph := ⟨"x", 0, 0, 12, some "Arial", some (PyColor.tuple [0])⟩

/-- A glyph whose character dict has no colour key at all. -/
def gNoKeyColor : Glyph := ⟨"x", 0, 0, 12, some "Arial", Option.none⟩

/-- The signature of the bold 12pt black glyphs of the interleaving scenario. -/
def bSig : Sig := ("arial-bold", 12, PyColor.tuple [0, 0, 0])

/-- The signature of the regular 12pt black glyphs of the interleaving scenario. -/
def nSig : Sig := ("arial", 12, PyColor.tuple [0, 0, 0])

/-- One row interleaving two styles: bold `"Hi"`, regular `" there"`,
bold `"!"`, in that visual order. -/
def hiThereLine : List Glyph :=
  [⟨"H", 0, 0, 12, some "Arial-Bold", Option.none⟩,
   ⟨"i", 0, 1, 12, some "Arial-Bold", Option.none⟩,
   ⟨" ", 0, 2, 12, some "Arial", Option.none⟩,
   ⟨"t", 0, 3, 12, some "Arial", Option.none⟩,
   ⟨"h", 0, 4, 12, some "Arial", Option.none⟩,
   ⟨"e", 0, 5, 12, some "Arial", Option.none⟩,
   ⟨"r", 0, 6, 12, some "Arial", Option.none⟩,
   ⟨"e", 0, 7, 12, some "Arial", Option.none⟩,
   ⟨"!", 0, 8, 12, some "Arial-Bold", Option.none⟩]

/-- A single glyph carrying the running-header text `"Page 3"`, styled so
that it would qualify as a level-1 heading if it survived filtering. -/
def gPage3 : Glyph := ⟨"Page 3", 0, 0, 20, some "Arial-Bold", Option.none⟩

/-- A body glyph `"Hello"` on a row far below the header row. -/
def gHello : Glyph := ⟨"Hello", 100, 0, 10, some "Arial", Option.none⟩

/-- The header-filter demonstration page. -/
def pageDemoGlyphs : List Glyph := [gPage3, gHello]

/-! Theorems settling the claims. -/


/-! Shared evaluation lemmas. -/

lemma filterHF_nil (p : Option Pattern) : filterHF p [] = .ok [] := by
  cases p <;> rfl

lemma string_append_nil (s : String) : s ++ "" = s := by
  cases s with
  | mk data => show String.mk (data ++ []) = String.mk data; rw [List.append_nil]

lemma hello_sorted : sortGlyphs helloGlyphs = helloGlyphs := by
  norm_num [sortGlyphs, List.insertionSort, List.orderedInsert, glyphLE, helloGlyphs,
    gH, gE, gL1, gL2, gO]

lemma hello_lines : clusterLines (sortGlyphs helloGlyphs) = [helloGlyphs] := by
  rw [hello_sorted]
  norm_num [clusterLines, clusterLoop, sameLine, lineTol, helloGlyphs, gH, gE, gL1, gL2, gO]

lemma hello_sig : styledChars helloGlyphs =
    [(("arial-bold", 20, PyColor.tuple [0, 0, 0]), ["H", "e", "l", "l", "o"])] := by
  norm_num [styledChars, addToBucket, glyphSig, pyRound, toLowerStr, helloGlyphs,
    gH, gE, gL1, gL2, gO]
  decide

lemma hello_obj : mkLineObj true true helloGlyphs =
    .ok ⟨"**Hello**", true, 1, some (PyColor.tuple [0, 0, 0])⟩ := by
  rw [mkLineObj, hello_sig]
  rfl

/-- Claim C10: with title recognition and colour recognition both
enabled, inline markup is applied to the run texts before heading
rendering, so the homogeneous bold 20pt black line `"Hello"` is rendered
as `# **Hello**` (strong markers inside the heading prefix), preceded by
the page delimiter. -/
theorem c10_markup_inside_heading :
    processPage true true Option.none Option.none 1 helloGlyphs =
      .ok (pageMarker 1 ++ "# **Hello**\n") := by
  rw [processPage, hello_lines]
  simp only [filterHF, bind, Except.bind, mkLineObjs]
  rw [hello_obj]
  rfl

/-- Claim C1 counterexample: three consecutive headings of equal level
and equal colour are NOT coalesced into one line; the merge pass joins
only the first two and leaves the third as a second output line. -/
theorem c1_counterexample :
    mergeTitles true [hA, hA, hA] =
      [⟨"T T", true, 1, some (PyColor.tuple [0, 0, 0])⟩, hA] ∧
    (mergeTitles true [hA, hA, hA]).length ≠ 1 := by
  decide

/-- Claim C1 (amended): in its single forward scan the merge pass joins a
heading with at most the single immediately following heading of equal
level and equal colour, the scan resuming after the pair, so a run of
three equal headings yields two lines; it never merges across a
non-heading line, and headings differing in level or colour never merge. -/
theorem c1_merge_pairwise (h1 h2 h3 b : LineObj)
    (hh1 : h1.is_heading = true) (hh2 : h2.is_heading = true)
    (hl : h1.heading_level = h2.heading_level) (hc : h1.color = h2.color) :
    mergeTitles true [h1, h2] = [{ h1 with text := h1.text ++ " " ++ h2.text }]
    ∧ mergeTitles true [h1, h2, h3] = [{ h1 with text := h1.text ++ " " ++ h2.text }, h3]
    ∧ (b.is_heading = false → mergeTitles true [h1, b, h2] = [h1, b, h2])
    ∧ (h3.is_heading = true → h2.color ≠ h3.color → mergeTitles true [h2, h3] = [h2, h3])
    ∧ (h3.is_heading = true → h2.heading_level ≠ h3.heading_level →
        mergeTitles true [h2, h3] = [h2, h3]) := by
  refine ⟨?_, ?_, ?_, ?_, ?_⟩
  · simp [mergeTitles, hh1, hh2, hl, hc]
  · simp [mergeTitles, hh1, hh2, hl, hc]
  · intro hb; simp [mergeTitles, hb]
  · intro _ hne; simp [mergeTitles, hne]
  · intro _ hne; simp [mergeTitles, hne]

/-- Claim C1 witness: the amended merge behaviour at concrete heading
line objects. -/
theorem c1_witness :
    mergeTitles true [hA, hA] = [{ hA with text := hA.text ++ " " ++ hA.text }]
    ∧ mergeTitles true [hA, hA, hB] = [{ hA with text := hA.text ++ " " ++ hA.text }, hB]
    ∧ (bX.is_heading = false → mergeTitles true [hA, bX, hA] = [hA, bX, hA])
    ∧ (hB.is_heading = true → hA.color ≠ hB.color → mergeTitles true [hA, hB] = [hA, hB])
    ∧ (hB.is_heading = true → hA.heading_level ≠ hB.heading_level →
        mergeTitles true [hA, hB] = [hA, hB]) :=
  c1_merge_pairwise hA hA hB bX rfl rfl rfl rfl

/-! Classification lemmas for C4. -/

lemma classifyLine_single (fn : String) (sz : ℤ) (c : PyColor) (ts : List String) :
    classifyLine true [((fn, sz, c), ts)] =
      if strContains fn "bold" = true ∧ 14 < sz then
        (true, if 18 < sz then 1 else 2, some c)
      else (false, 0, Option.none) := by
  simp [classifyLine]

lemma classifyLine_not_single (bs : List (Sig × List String)) (h : bs.length ≠ 1) :
    classifyLine true bs = (false, 0, Option.none) := by
  unfold classifyLine
  have hno : ¬ (true = true ∧ bs.length = 1) := fun hand => h hand.2
  rw [if_neg hno]

lemma addToBucket_keys (bs : List (Sig × List String)) (s : Sig) (t : String) :
    ∀ k ∈ (addToBucket bs s t).map Prod.fst, k ∈ bs.map Prod.fst ∨ k = s := by
  induction bs with
  | nil => simp [addToBucket]
  | cons hd tl ih =>
    obtain ⟨k0, ts0⟩ := hd
    by_cases hk : k0 = s
    · simp only [addToBucket, if_pos hk, List.map_cons, List.mem_cons]
      intro k hk2
      rcases hk2 with rfl | hk2
      · exact Or.inl (Or.inl rfl)
      · exact Or.inl (Or.inr hk2)
    · intro k hk2
      rw [addToBucket, if_neg hk] at hk2
      simp only [List.map_cons, List.mem_cons] at hk2 ⊢
      rcases hk2 with rfl | hk2
      · exact Or.inl (Or.inl rfl)
      · rcases ih k hk2 with h | h
        · exact Or.inl (Or.inr h)
        · exact Or.inr h

lemma styledChars_keys (line : List Glyph) :
    ∀ s ∈ (styledChars line).map Prod.fst, ∃ g ∈ line, s = glyphSig g := by
  have aux : ∀ (gs : List Glyph) (acc : List (Sig × List String)),
      ∀ s ∈ ((gs.foldl (fun acc g => addToBucket acc (glyphSig g) g.text) acc).map Prod.fst),
        s ∈ acc.map Prod.fst ∨ ∃ g ∈ gs, s = glyphSig g := by
    intro gs
    induction gs with
    | nil => intro acc s hs; exact Or.inl hs
    | cons g gs ih =>
      intro acc s hs
      rw [List.foldl_cons] at hs
      rcases ih _ s hs with h | h
      · rcases addToBucket_keys acc (glyphSig g) g.text s h with h2 | h2
        · exact Or.inl h2
        · exact Or.inr ⟨g, List.mem_cons_self g gs, h2⟩
      · obtain ⟨g2, hg2, hsg⟩ := h
        exact Or.inr ⟨g2, List.mem_cons_of_mem g hg2, hsg⟩
  intro s hs
  rcases aux line [] s hs with h | h
  · simp at h
  · exact h

/-- Claim C4: with title recognition enabled, a line is a heading iff its
styled-character dict has exactly one signature whose (lowercased) font
name contains `"bold"` and whose rounded size exceeds 14; then the level
is 1 exactly when the rounded size exceeds 18 and 2 otherwise and the
signature's colour is recorded; any line with more than one distinct
signature is classified as body regardless of its runs; and every
signature of the dict is the signature of some glyph of the line. -/
theorem c4_heading_classification (line : List Glyph) :
    ((classifyLine true (styledChars line)).1 = true ↔
      ∃ fn sz c ts, styledChars line = [((fn, sz, c), ts)] ∧
        strContains fn "bold" = true ∧ 14 < sz)
    ∧ (∀ fn sz c ts, styledChars line = [((fn, sz, c), ts)] →
        strContains fn "bold" = true → 14 < sz →
        classifyLine true (styledChars line) =
          (true, if 18 < sz then 1 else 2, some c))
    ∧ (1 < (styledChars line).length →
        classifyLine true (styledChars line) = (false, 0, Option.none))
    ∧ (∀ s ∈ (styledChars line).map Prod.fst, ∃ g ∈ line, s = glyphSig g) := by
  refine ⟨?_, ?_, ?_, styledChars_keys line⟩
  · constructor
    · intro h
      match hb : styledChars line with
      | [] => rw [hb] at h; simp [classifyLine] at h
      | [((fn, sz, c), ts)] =>
        rw [hb, classifyLine_single] at h
        by_cases hcond : strContains fn "bold" = true ∧ 14 < sz
        · exact ⟨fn, sz, c, ts, rfl, hcond.1, hcond.2⟩
        · rw [if_neg hcond] at h; simp at h
      | x :: y :: rest =>
        rw [hb, classifyLine_not_single] at h
        · simp at h
        · simp
    · rintro ⟨fn, sz, c, ts, hb, hbold, hsz⟩
      rw [hb, classifyLine_single, if_pos ⟨hbold, hsz⟩]
  · intro fn sz c ts hb hbold hsz
    rw [hb, classifyLine_single, if_pos ⟨hbold, hsz⟩]
  · intro h
    apply classifyLine_not_single
    omega

/-- Claim C4 witness: the classification at the concrete homogeneous bold
20pt line `"Hello"`. -/
theorem c4_witness :
    classifyLine true (styledChars helloGlyphs) =
      (true, if 18 < (20:ℤ) then 1 else 2, some (PyColor.tuple [0, 0, 0])) :=
  (c4_heading_classification helloGlyphs).2.1 "arial-bold" 20 (PyColor.tuple [0, 0, 0])
    ["H", "e", "l", "l", "o"] hello_sig (by decide) (by decide)


/-! Unfolding lemmas for the `Except`-monad do-notation of the pipeline. -/

lemma bind_ok_left {α β : Type} (a : α) (f : α → Except PdfErr β) :
    (Except.ok a : Except PdfErr α).bind f = f a := rfl

lemma bind_error_left {α β : Type} (e : PdfErr) (f : α → Except PdfErr β) :
    (Except.error e : Except PdfErr α).bind f = .error e := rfl

lemma bind_eq_ok {α β : Type} {x : Except PdfErr α} {f : α → Except PdfErr β} {b : β}
    (h : x.bind f = .ok b) : ∃ a, x = .ok a ∧ f a = .ok b := by
  cases x with
  | error e => exact absurd h (by simp [Except.bind])
  | ok a => exact ⟨a, rfl, h⟩

lemma processPage_eq (tr cr : Bool) (hp fp : Option Pattern) (n : ℤ) (chars : List Glyph) :
    processPage tr cr hp fp n chars =
      (filterHF hp (clusterLines (sortGlyphs chars))).bind (fun l1 =>
        (filterHF fp l1).bind (fun l2 =>
          (mkLineObjs tr cr l2).bind (fun objs =>
            .ok (pageMarker n ++ renderLines tr (mergeTitles tr objs))))) := rfl

lemma buildDoc_cons (tr cr : Bool) (hp fp : Option Pattern) (p : Page) (rest : List Page) :
    buildDoc tr cr hp fp (p :: rest) =
      p.chars.bind (fun cs =>
        (processPage tr cr hp fp p.page_number cs).bind (fun s =>
          (buildDoc tr cr hp fp rest).bind (fun restS => .ok (s ++ restS)))) := rfl

lemma pdf_to_markdown_ok_eq (tr cr : Bool) (hp fp : Option Pattern) (pages : List Page) :
    pdf_to_markdown tr cr hp fp (.ok pages) = buildDoc tr cr hp fp pages := rfl

lemma processPage_nil (tr cr : Bool) (hp fp : Option Pattern) (n : ℤ) :
    processPage tr cr hp fp n [] = .ok (pageMarker n) := by
  rw [processPage_eq]
  rw [show clusterLines (sortGlyphs []) = [] from rfl, filterHF_nil hp, bind_ok_left,
    filterHF_nil fp, bind_ok_left]
  show Except.ok (pageMarker n ++ renderLines tr (mergeTitles tr [])) = _
  rw [show mergeTitles tr [] = [] from rfl, show renderLines tr [] = "" from rfl,
    string_append_nil]

/-- Claim C8: every page, an empty one included, contributes its page
delimiter comment exactly once: an empty page renders to exactly the
delimiter and nothing else (no body lines), every successfully rendered
page output starts with the delimiter of its page number, and a document
of one empty page renders to exactly one delimiter. -/
theorem c8_page_marker :
    (∀ (tr cr : Bool) (hp fp : Option Pattern) (n : ℤ),
        processPage tr cr hp fp n [] = .ok (pageMarker n))
    ∧ (∀ (tr cr : Bool) (hp fp : Option Pattern) (n : ℤ) (chars : List Glyph) (s : String),
        processPage tr cr hp fp n chars = .ok s → ∃ body, s = pageMarker n ++ body)
    ∧ (∀ (tr cr : Bool) (hp fp : Option Pattern) (n : ℤ),
        pdf_to_markdown tr cr hp fp (.ok [⟨n, .ok []⟩]) = .ok (pageMarker n)) := by
  refine ⟨processPage_nil, ?_, ?_⟩
  · intro tr cr hp fp n chars s h
    rw [processPage_eq] at h
    obtain ⟨l1, -, h⟩ := bind_eq_ok h
    obtain ⟨l2, -, h⟩ := bind_eq_ok h
    obtain ⟨objs, -, h⟩ := bind_eq_ok h
    exact ⟨renderLines tr (mergeTitles tr objs), (Except.ok.inj h).symm⟩
  · intro tr cr hp fp n
    rw [pdf_to_markdown_ok_eq, buildDoc_cons]
    show ((Except.ok [] : Except PdfErr (List Glyph)).bind fun cs =>
      (processPage tr cr hp fp n cs).bind fun s =>
        (buildDoc tr cr hp fp []).bind fun restS => .ok (s ++ restS)) = _
    rw [bind_ok_left, processPage_nil, bind_ok_left]
    show Except.ok (pageMarker n ++ "") = _
    rw [string_append_nil]

/-- Claim C8 witness: the page-marker facts applied at a concrete empty
page. -/
theorem c8_witness : ∃ body, pageMarker 1 = pageMarker 1 ++ body :=
  c8_page_marker.2.1 false false Option.none Option.none 1 [] (pageMarker 1)
    (processPage_nil false false Option.none Option.none 1)

lemma buildDoc_error (tr cr : Bool) (hp fp : Option Pattern) :
    ∀ (pages : List Page) (p : Page) (e : PdfErr), p ∈ pages → p.chars = .error e →
      ∃ e', buildDoc tr cr hp fp pages = .error e' := by
  intro pages
  induction pages with
  | nil => intro p e hmem; exact absurd hmem (List.not_mem_nil p)
  | cons q rest ih =>
    intro p e hmem hchars
    rw [buildDoc_cons]
    rcases List.mem_cons.mp hmem with rfl | hmem'
    · rw [hchars, bind_error_left]
      exact ⟨e, rfl⟩
    · cases hq : q.chars with
      | error e2 => rw [bind_error_left]; exact ⟨e2, rfl⟩
      | ok cs =>
        rw [bind_ok_left]
        cases hpp : processPage tr cr hp fp q.page_number cs with
        | error e2 => rw [bind_error_left]; exact ⟨e2, rfl⟩
        | ok s =>
          rw [bind_ok_left]
          obtain ⟨e', he'⟩ := ih p e hmem' hchars
          rw [he', bind_error_left]
          exact ⟨e', rfl⟩

/-- Claim C9: a failure of the character source anywhere (opening the
document, or reading any page's characters) aborts the whole document
with an error, so no output artifact is produced; the `.ok` content is
only ever produced after every page succeeded. -/
theorem c9_abort_no_partial_output :
    (∀ (tr cr : Bool) (hp fp : Option Pattern) (e : PdfErr),
        pdf_to_markdown tr cr hp fp (.error e) = .error e)
    ∧ (∀ (tr cr : Bool) (hp fp : Option Pattern) (pages : List Page) (p : Page) (e : PdfErr),
        p ∈ pages → p.chars = .error e →
        ∃ e', pdf_to_markdown tr cr hp fp (.ok pages) = .error e') := by
  constructor
  · intro tr cr hp fp e; rfl
  · intro tr cr hp fp pages p e hmem hchars
    rw [pdf_to_markdown_ok_eq]
    exact buildDoc_error tr cr hp fp pages p e hmem hchars

/-- Claim C9 witness: a one-page document whose page fails extraction
aborts, and a failed open aborts with the same error. -/
theorem c9_witness :
    pdf_to_markdown false false Option.none Option.none (.error .extractionErr) =
      .error .extractionErr
    ∧ ∃ e', pdf_to_markdown false false Option.none Option.none (.ok [badPage]) = .error e' :=
  ⟨c9_abort_no_partial_output.1 false false Option.none Option.none .extractionErr,
   c9_abort_no_partial_output.2 false false Option.none Option.none [badPage] badPage
     .extractionErr (List.mem_singleton.mpr rfl) rfl⟩


/-! Lemmas for C2 (lazy pattern failure). -/

lemma clusterLoop_ne_nil (rest : List Glyph) : ∀ (pre : List Glyph) (last : Glyph),
    clusterLoop pre last rest ≠ [] := by
  induction rest with
  | nil => intro pre last; simp [clusterLoop]
  | cons c rest ih =>
    intro pre last
    rw [clusterLoop]
    split
    · exact ih _ _
    · simp

lemma sortGlyphs_perm (gs : List Glyph) : List.Perm (sortGlyphs gs) gs :=
  List.perm_insertionSort glyphLE gs

lemma sortGlyphs_cons_ne_nil (g : Glyph) (gs : List Glyph) : sortGlyphs (g :: gs) ≠ [] := by
  intro h
  have := (sortGlyphs_perm (g :: gs)).length_eq
  rw [h] at this
  simp at this

lemma filterLoop_invalid_cons (l : List Glyph) (ls : List (List Glyph)) :
    filterLoop Pattern.invalid (l :: ls) = .error .patternErr := rfl

lemma processPage_invalid_cons (tr cr : Bool) (fp : Option Pattern) (n : ℤ)
    (g : Glyph) (gs : List Glyph) :
    processPage tr cr (some Pattern.invalid) fp n (g :: gs) = .error .patternErr := by
  rw [processPage_eq]
  obtain ⟨l, ls, hl⟩ : ∃ l ls, clusterLines (sortGlyphs (g :: gs)) = l :: ls := by
    cases hs : sortGlyphs (g :: gs) with
    | nil => exact absurd hs (sortGlyphs_cons_ne_nil g gs)
    | cons a rest =>
      cases hc : clusterLines (a :: rest) with
      | nil => exact absurd hc (by rw [clusterLines]; exact clusterLoop_ne_nil rest [] a)
      | cons l ls => exact ⟨l, ls, rfl⟩
  rw [hl]
  rw [show filterHF (some Pattern.invalid) (l :: ls) = .error .patternErr from rfl,
    bind_error_left]

lemma buildDoc_all_empty (tr cr : Bool) (hp fp : Option Pattern) :
    ∀ (pages : List Page), (∀ p ∈ pages, p.chars = .ok ([] : List Glyph)) →
      ∃ s, buildDoc tr cr hp fp pages = .ok s := by
  intro pages
  induction pages with
  | nil => intro _; exact ⟨"", rfl⟩
  | cons q rest ih =>
    intro hall
    obtain ⟨s, hs⟩ := ih (fun p hp2 => hall p (List.mem_cons_of_mem q hp2))
    rw [buildDoc_cons, hall q (List.mem_cons_self q rest), bind_ok_left,
      processPage_nil, bind_ok_left, hs, bind_ok_left]
    exact ⟨pageMarker q.page_number ++ s, rfl⟩

/-- Claim C2 counterexample: with an invalid header pattern configured,
a document whose single page yields no lines is processed to completion
and produces output — no pattern error is ever raised, contradicting the
claim that the error is raised before any page is processed even when
the pages yield no lines. -/
theorem c2_counterexample :
    pdf_to_markdown false false (some Pattern.invalid) Option.none (.ok [emptyPage]) =
      .ok (pageMarker 1)
    ∧ ∀ e, pdf_to_markdown false false (some Pattern.invalid) Option.none (.ok [emptyPage]) ≠
        .error e := by
  have h0 : pdf_to_markdown false false (some Pattern.invalid) Option.none (.ok [emptyPage]) =
      .ok (pageMarker 1) := by
    rw [pdf_to_markdown_ok_eq, buildDoc_cons,
      show emptyPage.chars = .ok [] from rfl, bind_ok_left,
      show emptyPage.page_number = 1 from rfl,
      processPage_nil, bind_ok_left]
    show Except.ok (pageMarker 1 ++ "") = _
    rw [string_append_nil]
  refine ⟨h0, fun e h => ?_⟩
  rw [h0] at h
  exact Except.noConfusion h

/-- Claim C2 (amended): an invalid header/footer pattern raises its
pattern error lazily, during per-page processing, at the first line
matched against it: a document whose pages all yield no lines finishes
with output and no error, while a page with at least one glyph (hence at
least one line) raises the pattern error. -/
theorem c2_pattern_error_is_lazy (tr cr : Bool) (fp : Option Pattern) (pages : List Page)
    (hempty : ∀ p ∈ pages, p.chars = .ok ([] : List Glyph)) :
    (∃ s, pdf_to_markdown tr cr (some Pattern.invalid) fp (.ok pages) = .ok s)
    ∧ ∀ (n : ℤ) (g : Glyph) (gs : List Glyph),
        pdf_to_markdown tr cr (some Pattern.invalid) fp (.ok [⟨n, .ok (g :: gs)⟩]) =
          .error .patternErr := by
  constructor
  · rw [pdf_to_markdown_ok_eq]
    exact buildDoc_all_empty tr cr (some Pattern.invalid) fp pages hempty
  · intro n g gs
    rw [pdf_to_markdown_ok_eq, buildDoc_cons]
    show ((Except.ok (g :: gs) : Except PdfErr (List Glyph)).bind fun cs =>
      (processPage tr cr (some Pattern.invalid) fp n cs).bind fun s =>
        (buildDoc tr cr (some Pattern.invalid) fp []).bind fun restS => .ok (s ++ restS)) = _
    rw [bind_ok_left, processPage_invalid_cons, bind_error_left]

/-- Claim C2 witness: the amended lazy-failure behaviour at concrete
documents. -/
theorem c2_witness :
    pdf_to_markdown false false (some Pattern.invalid) Option.none
      (.ok [⟨2, .ok [gHello]⟩]) = .error .patternErr :=
  (c2_pattern_error_is_lazy false false Option.none []
    (fun p hp => absurd hp (List.not_mem_nil p))).2 2 gHello []

/-! Lemmas for C3 (malformed colour propagation). -/

lemma gNoneColor_sig : styledChars [gNoneColor] =
    [(("arial", 12, PyColor.none), ["x"])] := by
  norm_num [styledChars, addToBucket, glyphSig, pyRound, toLowerStr, gNoneColor]
  decide

lemma gShortColor_sig : styledChars [gShortColor] =
    [(("arial", 12, PyColor.tuple [0]), ["x"])] := by
  norm_num [styledChars, addToBucket, glyphSig, pyRound, toLowerStr, gShortColor]
  decide

lemma gNoneColor_obj : mkLineObj true true [gNoneColor] = .error .typeErr := by
  rw [mkLineObj, gNoneColor_sig]; rfl

lemma gShortColor_obj : mkLineObj true true [gShortColor] = .error .typeErr := by
  rw [mkLineObj, gShortColor_sig]; rfl

/-- Claim C3: a glyph with no colour key at all is indeed normalised to
the black sentinel in its style signature, but a present-and-malformed
colour (Python `None`, or a 1-tuple) is NOT normalised: it propagates
into the signature and colour-markup rendering then crashes indexing
channels of the malformed value (`TypeError` for `None`, `IndexError`
for a short tuple), so classification-plus-rendering does have a failure
mode, contradicting the claim. -/
theorem c3_malformed_color_crashes :
    glyphSig gNoKeyColor = ("arial", 12, PyColor.tuple [0, 0, 0])
    ∧ mkLineObj true true [gNoneColor] = .error .typeErr
    ∧ mkLineObj true true [gShortColor] = .error .typeErr
    ∧ processPage true true Option.none Option.none 1 [gNoneColor] = .error .typeErr := by
  refine ⟨?_, gNoneColor_obj, gShortColor_obj, ?_⟩
  · norm_num [glyphSig, pyRound, toLowerStr, gNoKeyColor]
    decide
  · rw [processPage_eq]
    rw [show clusterLines (sortGlyphs [gNoneColor]) = [[gNoneColor]] from rfl]
    rw [show filterHF Option.none [[gNoneColor]] = .ok [[gNoneColor]] from rfl, bind_ok_left,
      show filterHF Option.none [[gNoneColor]] = .ok [[gNoneColor]] from rfl, bind_ok_left]
    rw [show mkLineObjs true true [[gNoneColor]] =
      (mkLineObj true true [gNoneColor]).bind (fun o =>
        (mkLineObjs true true []).bind (fun os => .ok (o :: os))) from rfl]
    rw [gNoneColor_obj, bind_error_left, bind_error_left]


/-! Lemmas for C5 (global-by-signature bucketing). -/

lemma bucketTexts_add (bs : List (Sig × List String)) (s : Sig) (t : String) (s' : Sig) :
    bucketTexts (addToBucket bs s t) s' =
      if s' = s then bucketTexts bs s' ++ [t] else bucketTexts bs s' := by
  induction bs with
  | nil =>
    by_cases h : s' = s
    · subst h
      simp [addToBucket, bucketTexts]
    · simp [addToBucket, bucketTexts, h, Ne.symm h]
  | cons hd tl ih =>
    obtain ⟨k, ts⟩ := hd
    by_cases hk : k = s
    · subst hk
      by_cases h : s' = k
      · subst h
        simp [addToBucket, bucketTexts]
      · simp [addToBucket, bucketTexts, h, Ne.symm h]
    · by_cases h : k = s'
      · subst h
        simp [addToBucket, bucketTexts, hk, fun he : k = s => hk he]
      · simp [addToBucket, bucketTexts, hk, h, ih]

lemma bucketTexts_foldl (gs : List Glyph) :
    ∀ (acc : List (Sig × List String)) (s : Sig),
      bucketTexts (gs.foldl (fun acc g => addToBucket acc (glyphSig g) g.text) acc) s =
        bucketTexts acc s ++ (gs.filter (fun g => glyphSig g = s)).map (·.text) := by
  induction gs with
  | nil => intro acc s; simp
  | cons g gs ih =>
    intro acc s
    rw [List.foldl_cons, ih, bucketTexts_add, List.filter_cons]
    by_cases h : glyphSig g = s
    · rw [if_pos h.symm, if_pos (by simp [h])]
      simp
    · rw [if_neg (fun hs : s = glyphSig g => h hs.symm), if_neg (by simp [h])]

/-- Claim C5: style grouping buckets the glyph texts of a line by style
signature globally across the whole line (the bucket of a signature
holds exactly the texts of all its glyphs, in line order, regardless of
interleaving), in first-seen-signature order; on the concrete interleaved
row bold `"Hi"`, regular `" there"`, bold `"!"` it yields exactly two
runs (so the line is never a heading) and the rendered text groups the
same-signature spans together as bold `"Hi!"` followed by `" there"`. -/
theorem c5_global_bucketing :
    (∀ (line : List Glyph) (s : Sig),
        bucketTexts (styledChars line) s =
          (line.filter (fun g => glyphSig g = s)).map (·.text))
    ∧ styledChars hiThereLine =
        [(bSig, ["H", "i", "!"]), (nSig, [" ", "t", "h", "e", "r", "e"])]
    ∧ (styledChars hiThereLine).length = 2
    ∧ classifyLine true (styledChars hiThereLine) = (false, 0, Option.none)
    ∧ mkLineObj true true hiThereLine = .ok ⟨"**Hi!** there", false, 0, Option.none⟩ := by
  have hsig : styledChars hiThereLine =
      [(bSig, ["H", "i", "!"]), (nSig, [" ", "t", "h", "e", "r", "e"])] := by
    norm_num [styledChars, addToBucket, glyphSig, pyRound, toLowerStr, hiThereLine,
      bSig, nSig]
    decide
  refine ⟨fun line s => bucketTexts_foldl line [] s, hsig, ?_, ?_, ?_⟩
  · rw [hsig]; rfl
  · rw [hsig]; rfl
  · rw [mkLineObj, hsig]; rfl

/-! Lemmas for C7 (header/footer filtering). -/

lemma filterLoop_valid (m : String → Bool) (lines : List (List Glyph)) :
    filterLoop (Pattern.valid m) lines =
      .ok (lines.filter (fun l => !(m (trimStr (rawLineText l))))) := by
  induction lines with
  | nil => rfl
  | cons l rest ih =>
    rw [show filterLoop (Pattern.valid m) (l :: rest) =
      (filterLoop (Pattern.valid m) rest).bind (fun tail =>
        .ok (if m (trimStr (rawLineText l)) then tail else l :: tail)) from rfl]
    rw [ih, bind_ok_left, List.filter_cons]
    cases hb : m (trimStr (rawLineText l)) <;> simp [hb]

lemma demo_sorted : sortGlyphs pageDemoGlyphs = pageDemoGlyphs := by
  norm_num [sortGlyphs, List.insertionSort, List.orderedInsert, glyphLE, pageDemoGlyphs,
    gPage3, gHello]

lemma demo_lines : clusterLines (sortGlyphs pageDemoGlyphs) = [[gPage3], [gHello]] := by
  rw [demo_sorted]
  norm_num [clusterLines, clusterLoop, sameLine, lineTol, pageDemoGlyphs, gPage3, gHello]

lemma demo_filtered :
    filterHF (some (Pattern.valid matchPageNum)) [[gPage3], [gHello]] = .ok [[gHello]] := rfl

lemma demo_hello_sig : styledChars [gHello] =
    [(("arial", 10, PyColor.tuple [0, 0, 0]), ["Hello"])] := by
  norm_num [styledChars, addToBucket, glyphSig, pyRound, toLowerStr, gHello]
  decide

lemma demo_hello_obj : mkLineObj true true [gHello] =
    .ok ⟨"Hello", false, 0, Option.none⟩ := by
  rw [mkLineObj, demo_hello_sig]; rfl

/-- Claim C7: header/footer filtering discards exactly the lines whose
concatenated whitespace-trimmed text matches the configured pattern from
the start (the `^Page \d+` pattern removes `"Page 3"` but keeps
`"Page Three"`); an absent pattern filters nothing; and filtering runs
before style grouping, classification and merging, so a filtered line
contributes nothing to the page output even though it would otherwise
render as a heading. -/
theorem c7_header_footer_filter :
    (∀ lines : List (List Glyph), filterHF Option.none lines = .ok lines)
    ∧ (∀ (m : String → Bool) (lines : List (List Glyph)),
        filterLoop (Pattern.valid m) lines =
          .ok (lines.filter (fun l => !(m (trimStr (rawLineText l))))))
    ∧ (matchPageNum "Page 3" = true ∧ matchPageNum "Page Three" = false)
    ∧ processPage true true (some (Pattern.valid matchPageNum)) Option.none 1 pageDemoGlyphs =
        .ok (pageMarker 1 ++ "Hello\n") := by
  refine ⟨fun lines => rfl, filterLoop_valid, ⟨rfl, rfl⟩, ?_⟩
  rw [processPage_eq, demo_lines, demo_filtered, bind_ok_left]
  rw [show filterHF Option.none [[gHello]] = .ok [[gHello]] from rfl, bind_ok_left]
  rw [show mkLineObjs true true [[gHello]] =
    (mkLineObj true true [gHello]).bind (fun o =>
      (mkLineObjs true true []).bind (fun os => .ok (o :: os))) from rfl]
  rw [demo_hello_obj]
  rfl


/-! Lemmas for C6 (line segmentation). -/

lemma clusterLoop_join (rest : List Glyph) : ∀ (pre : List Glyph) (last : Glyph),
    (clusterLoop pre last rest).flatten = pre ++ last :: rest := by
  induction rest with
  | nil => intro pre last; simp [clusterLoop]
  | cons c rest ih =>
    intro pre last
    rw [clusterLoop]
    split
    · rw [ih]
      simp
    · rw [List.flatten_cons, ih]
      simp

lemma clusterLines_join (gs : List Glyph) : (clusterLines gs).flatten = gs := by
  cases gs with
  | nil => rfl
  | cons g rest => rw [clusterLines, clusterLoop_join]; rfl

lemma clusterLoop_chain (rest : List Glyph) : ∀ (pre : List Glyph) (last : Glyph),
    List.Chain' sameLine (pre ++ [last]) →
    ∀ l ∈ clusterLoop pre last rest, l ≠ [] ∧ List.Chain' sameLine l := by
  induction rest with
  | nil =>
    intro pre last hchain l hl
    rw [clusterLoop] at hl
    rw [List.mem_singleton] at hl
    subst hl
    exact ⟨by simp, hchain⟩
  | cons c rest ih =>
    intro pre last hchain l hl
    rw [clusterLoop] at hl
    by_cases hsl : sameLine last c
    · rw [if_pos hsl] at hl
      refine ih (pre ++ [last]) c ?_ l hl
      rw [List.chain'_append]
      refine ⟨hchain, List.chain'_singleton c, ?_⟩
      intro x hx y hy
      rw [List.getLast?_concat] at hx
      rw [Option.mem_def, Option.some_inj] at hx
      rw [List.head?_cons, Option.mem_def, Option.some_inj] at hy
      subst hx; subst hy
      exact hsl
    · rw [if_neg hsl] at hl
      rcases List.mem_cons.mp hl with rfl | hl2
      · exact ⟨by simp, hchain⟩
      · refine ih [] c ?_ l hl2
        simp

lemma clusterLoop_head (rest : List Glyph) : ∀ (pre : List Glyph) (last : Glyph),
    ∃ l ls, clusterLoop pre last rest = l :: ls ∧ l.head? = (pre ++ [last]).head? := by
  induction rest with
  | nil => intro pre last; exact ⟨pre ++ [last], [], by rw [clusterLoop], rfl⟩
  | cons c rest ih =>
    intro pre last
    rw [clusterLoop]
    by_cases hsl : sameLine last c
    · rw [if_pos hsl]
      obtain ⟨l, ls, heq, hhead⟩ := ih (pre ++ [last]) c
      refine ⟨l, ls, heq, ?_⟩
      rw [hhead, List.append_assoc]
      cases pre <;> simp
    · rw [if_neg hsl]
      exact ⟨pre ++ [last], clusterLoop [] c rest, rfl, rfl⟩

lemma clusterLoop_break_chain (rest : List Glyph) : ∀ (pre : List Glyph) (last : Glyph),
    List.Chain' lineBreak (clusterLoop pre last rest) := by
  induction rest with
  | nil => intro pre last; rw [clusterLoop]; exact List.chain'_singleton _
  | cons c rest ih =>
    intro pre last
    rw [clusterLoop]
    by_cases hsl : sameLine last c
    · rw [if_pos hsl]; exact ih _ _
    · rw [if_neg hsl]
      obtain ⟨l2, ls2, heq, hhead⟩ := clusterLoop_head rest [] c
      rw [heq, List.chain'_cons']
      refine ⟨?_, heq ▸ ih [] c⟩
      intro y hy
      rw [List.head?_cons, Option.mem_def, Option.some_inj] at hy
      subst hy
      intro a ha b hb
      rw [List.getLast?_concat, Option.mem_def, Option.some_inj] at ha
      subst ha
      rw [hhead] at hb
      rw [List.nil_append, List.head?_cons, Option.mem_def, Option.some_inj] at hb
      subst hb
      exact hsl

/-- Claim C6: the segmenter sorts the page's glyphs by `(top, x0)` (a
sorted permutation) and walks the sorted list: any two consecutive
glyphs inside one emitted line passed the continuation test (vertical
distance below 20% of the earlier glyph's size, the tolerance recomputed
from the last appended glyph), consecutive emitted lines are separated
by a failed continuation test, the emitted lines partition the sorted
glyphs in order, an empty glyph list yields no lines and a single glyph
yields exactly one single-glyph line. -/
theorem c6_line_segmentation :
    (clusterLines (sortGlyphs []) = [] ∧ ∀ g : Glyph, clusterLines (sortGlyphs [g]) = [[g]])
    ∧ (∀ gs : List Glyph, List.Sorted glyphLE (sortGlyphs gs) ∧ List.Perm (sortGlyphs gs) gs)
    ∧ (∀ gs : List Glyph, (clusterLines gs).flatten = gs)
    ∧ (∀ gs : List Glyph, ∀ l ∈ clusterLines gs, l ≠ [] ∧ List.Chain' sameLine l)
    ∧ (∀ gs : List Glyph, List.Chain' lineBreak (clusterLines gs)) := by
  refine ⟨⟨rfl, fun g => rfl⟩, ?_, clusterLines_join, ?_, ?_⟩
  · intro gs
    exact ⟨List.sorted_insertionSort glyphLE gs, sortGlyphs_perm gs⟩
  · intro gs l hl
    cases gs with
    | nil => exact absurd hl (List.not_mem_nil l)
    | cons g rest =>
      rw [clusterLines] at hl
      exact clusterLoop_chain rest [] g (by simp) l hl
  · intro gs
    cases gs with
    | nil => exact List.chain'_nil
    | cons g rest =>
      rw [clusterLines]
      exact clusterLoop_break_chain rest [] g

/-- Claim C6 witness: the segmentation facts applied at a concrete
single-glyph page. -/
theorem c6_witness : [gH] ≠ [] ∧ List.Chain' sameLine [gH] :=
  c6_line_segmentation.2.2.2.1 [gH] [gH]
    (by rw [show clusterLines [gH] = [[gH]] from rfl]; exact List.mem_singleton.mpr rfl)

end PdfMd
